import Mathlib

/-!
Shallow embedding of the JYancey4.github.io repository fragments that the
verified claims concern:

* the parametric mesh generators of the OpenGL coffee-mug demo
  (`CreatePlaneMesh`, `CreatePyramidMesh`, `CreateCylinderMesh`,
  `CreateTorusMesh` in the unnamed C++ demo source), split into their pure
  vertex/index data (translated literally from the generation loops, with
  `float` idealised as `ℝ`) and a small model of the OpenGL buffer-upload
  calls (`glGenVertexArrays`/`glGenBuffers`/`glBufferData`) as explicit
  state passing;
* the free-look camera of the demo (its `camera.h` is not part of the
  repository sources, so it is modelled from the specification);
* the command-line political-affiliation quiz (`Source.cpp`), whose tally
  loop and `std::max_element` prediction are translated over association
  lists that mirror `std::map`'s sorted iteration order.
-/

/-- One interleaved vertex as pushed by the C++ `pushVertex(x, y, z, s, t)`
helpers: a 3-component position followed by a 2-component texture
coordinate. -/
structure Vertex where
  x : ℝ
  y : ℝ
  z : ℝ
  s : ℝ
  t : ℝ

namespace ListHelpers

/-- Length of a flatMap over `List.range` whose cells all have size `c`. -/
theorem length_flatMap_const {α : Type} (f : ℕ → List α) (c N : ℕ)
    (hf : ∀ j, (f j).length = c) :
    ((List.range N).flatMap f).length = N * c := by
  induction N with
  | zero => simp
  | succ n ih =>
    rw [List.range_succ, List.flatMap_append, List.length_append, ih]
    simp [hf, Nat.succ_mul]

/-- Splitting a flatMap over `List.range N` at cell `i`: the output is the
first `i` cells, then cell `i`, then a suffix. -/
theorem flatMap_range_eq_append {α : Type} (f : ℕ → List α) (N i : ℕ)
    (hi : i < N) :
    ∃ suffix, (List.range N).flatMap f =
      (List.range i).flatMap f ++ (f i ++ suffix) := by
  refine ⟨((List.range (N - i - 1)).map fun k => i + 1 + k).flatMap f, ?_⟩
  have h : N = i + (1 + (N - i - 1)) := by omega
  rw [h, List.range_add, List.flatMap_append, List.range_add, List.map_append,
    List.map_map, List.flatMap_append]
  have h1 : List.range 1 = [0] := rfl
  rw [h1]
  simp [Function.comp, Nat.add_assoc]

/-- Element `k` of cell `i` of a flatMap over `List.range N` with uniform
cell size `c` sits at flat position `c * i + k`. -/
theorem getElem?_flatMap_range {α : Type} (f : ℕ → List α) (c N i k : ℕ)
    (hf : ∀ j, (f j).length = c) (hi : i < N) (hk : k < c) :
    ((List.range N).flatMap f)[c * i + k]? = (f i)[k]? := by
  obtain ⟨suffix, hsplit⟩ := flatMap_range_eq_append f N i hi
  have hlen : ((List.range i).flatMap f).length = i * c :=
    length_flatMap_const f c i hf
  rw [Nat.mul_comm c i]
  rw [hsplit, List.getElem?_append, hlen]
  rw [if_neg (Nat.not_lt.mpr (Nat.le_add_right _ _))]
  rw [Nat.add_sub_cancel_left, List.getElem?_append]
  rw [if_pos (by rw [hf]; exact hk)]

/-- A window of cell `i` of a flatMap over `List.range N` with uniform cell
size `c`: dropping `c * i + d` elements and taking `k ≤ c - d` of them reads
inside cell `i`. -/
theorem drop_take_flatMap_range {α : Type} (f : ℕ → List α) (c N i d k : ℕ)
    (hf : ∀ j, (f j).length = c) (hi : i < N) (hdk : d + k ≤ c) :
    (((List.range N).flatMap f).drop (c * i + d)).take k =
      ((f i).drop d).take k := by
  obtain ⟨suffix, hsplit⟩ := flatMap_range_eq_append f N i hi
  have hlen : ((List.range i).flatMap f).length = i * c :=
    length_flatMap_const f c i hf
  rw [Nat.mul_comm c i]
  rw [hsplit, List.drop_append_eq_append_drop, hlen]
  rw [List.drop_eq_nil_of_le (le_of_eq_of_le hlen (Nat.le_add_right _ _)),
    List.nil_append, Nat.add_sub_cancel_left]
  rw [List.drop_append_eq_append_drop]
  rw [List.take_append_of_le_length (by rw [List.length_drop, hf]; omega)]

end ListHelpers

open ListHelpers

/-- Vertex data of `CreatePlaneMesh(planeSize, planeY)`: the literal `verts`
array of the C++ function (positions interleaved with texture
coordinates). -/
noncomputable def CreatePlaneMeshVertices (planeSize planeY : ℝ) : List Vertex :=
  [ ⟨-planeSize, planeY, -planeSize, 0, 0⟩,
    ⟨planeSize, planeY, -planeSize, 1, 0⟩,
    ⟨planeSize, planeY, planeSize, 1, 1⟩,
    ⟨-planeSize, planeY, planeSize, 0, 1⟩ ]

/-- Index data of `CreatePlaneMesh`: the literal `indices` array (two
triangles). -/
def CreatePlaneMeshIndices : List ℕ := [0, 1, 2, 2, 3, 0]

/-- Vertex data of `CreatePyramidMesh(baseSize, height)`: four base corners
at `y = 0` and the apex at `y = height`, as pushed by the C++ function. -/
noncomputable def CreatePyramidMeshVertices (baseSize height : ℝ) : List Vertex :=
  [ ⟨-(baseSize / 2), 0, -(baseSize / 2), 0, 0⟩,
    ⟨baseSize / 2, 0, -(baseSize / 2), 1, 0⟩,
    ⟨baseSize / 2, 0, baseSize / 2, 1, 1⟩,
    ⟨-(baseSize / 2), 0, baseSize / 2, 0, 1⟩,
    ⟨0, height, 0, 0.5, 0.5⟩ ]

/-- Index data of `CreatePyramidMesh`: two base triangles and four side
triangles referencing the apex (vertex 4). -/
def CreatePyramidMeshIndices : List ℕ :=
  [0, 1, 2, 0, 2, 3, 0, 1, 4, 1, 2, 4, 2, 3, 4, 3, 0, 4]

/-- The vertex pushed by `CreateCylinderMesh` for height level `y` and radial
step `x`: radius and height interpolate linearly per level, the angle is
`2π·x/radialSegments`, and the texture coordinate is
`(x/radialSegments, y/heightSegments)`. -/
noncomputable def cylinderVertex (baseRadius topRadius height : ℝ)
    (radialSegments heightSegments : ℕ) (y x : ℕ) : Vertex :=
  let currentHeight : ℝ := height * y / heightSegments
  let currentRadius : ℝ := baseRadius + (y : ℝ) / heightSegments * (topRadius - baseRadius)
  let theta : ℝ := 2 * Real.pi * x / radialSegments
  ⟨currentRadius * Real.cos theta, currentHeight, currentRadius * Real.sin theta,
    (x : ℝ) / radialSegments, (y : ℝ) / heightSegments⟩

/-- Vertex data of `CreateCylinderMesh`: the double loop
`for y in 0..=heightSegments, for x in 0..=radialSegments`. -/
noncomputable def CreateCylinderMeshVertices (baseRadius topRadius height : ℝ)
    (radialSegments heightSegments : ℕ) : List Vertex :=
  (List.range (heightSegments + 1)).flatMap fun y =>
    (List.range (radialSegments + 1)).map
      (cylinderVertex baseRadius topRadius height radialSegments heightSegments y)

/-- The six indices `CreateCylinderMesh` emits for level `y` and radial step
`x`: `base, base+1, next, next, base+1, next+1` with
`base = y*(radialSegments+1) + x` and `next = base + radialSegments + 1`. -/
def cylinderQuadIndices (radialSegments y x : ℕ) : List ℕ :=
  let base := y * (radialSegments + 1) + x
  let next := base + radialSegments + 1
  [base, base + 1, next, next, base + 1, next + 1]

/-- Index data of `CreateCylinderMesh`: the double loop
`for y in 0..<heightSegments, for x in 0..<radialSegments`. -/
def CreateCylinderMeshIndices (radialSegments heightSegments : ℕ) : List ℕ :=
  (List.range heightSegments).flatMap fun y =>
    (List.range radialSegments).flatMap (cylinderQuadIndices radialSegments y)

/-- The vertex pushed by `CreateTorusMesh` for tubular step `i` and radial
step `j`: the circle center is `(cos u · innerRadius, sin u · innerRadius, 0)`
and the vertex is `center + outerRadius · (cos v, 0, sin v)`, with
`u = i/tubularSegments · 2π` and `v = j/radialSegments · 2π`.  The unused
`color` parameter of the C++ signature does not influence the data and is
omitted. -/
noncomputable def torusVertex (innerRadius outerRadius : ℝ)
    (radialSegments tubularSegments : ℕ) (i j : ℕ) : Vertex :=
  let u : ℝ := (i : ℝ) / tubularSegments * 2 * Real.pi
  let v : ℝ := (j : ℝ) / radialSegments * 2 * Real.pi
  ⟨Real.cos u * innerRadius + outerRadius * Real.cos v,
    Real.sin u * innerRadius + outerRadius * 0,
    0 + outerRadius * Real.sin v,
    (i : ℝ) / tubularSegments, (j : ℝ) / radialSegments⟩

/-- Vertex data of `CreateTorusMesh`: the double loop
`for i in 0..=tubularSegments, for j in 0..=radialSegments`. -/
noncomputable def CreateTorusMeshVertices (innerRadius outerRadius : ℝ)
    (radialSegments tubularSegments : ℕ) : List Vertex :=
  (List.range (tubularSegments + 1)).flatMap fun i =>
    (List.range (radialSegments + 1)).map
      (torusVertex innerRadius outerRadius radialSegments tubularSegments i)

/-- Narrowing of an `int` value pushed into a `std::vector<GLushort>`:
`GLushort` is 16 bits, so the stored value is the pushed value mod 2^16. -/
def glushort (v : ℕ) : ℕ := v % 65536

/-- The six indices `CreateTorusMesh` stores for grid cell `(i, j)`:
`first, second, first+1, second, second+1, first+1` with
`first = i*(radialSegments+1) + j` and `second = first + radialSegments + 1`,
each computed as an `int` and narrowed to `GLushort` by the
`indices.push_back` into the `std::vector<GLushort>` buffer. -/
def torusQuadIndices (radialSegments i j : ℕ) : List ℕ :=
  let first := i * (radialSegments + 1) + j
  let second := first + radialSegments + 1
  [glushort first, glushort second, glushort (first + 1),
    glushort second, glushort (second + 1), glushort (first + 1)]

/-- Index data of `CreateTorusMesh`: the double loop
`for i in 0..<tubularSegments, for j in 0..<radialSegments`, pushing into
the `GLushort` index buffer. -/
def CreateTorusMeshIndices (radialSegments tubularSegments : ℕ) : List ℕ :=
  (List.range tubularSegments).flatMap fun i =>
    (List.range radialSegments).flatMap (torusQuadIndices radialSegments i)

/-- Length of one grid row of cylinder vertex data. -/
theorem cylinderRow_length (baseRadius topRadius height : ℝ)
    (radialSegments heightSegments y : ℕ) :
    ((List.range (radialSegments + 1)).map
      (cylinderVertex baseRadius topRadius height radialSegments heightSegments y)).length
      = radialSegments + 1 := by
  simp

/-- Vertex count of the cylinder generator. -/
theorem CreateCylinderMeshVertices_length (baseRadius topRadius height : ℝ)
    (n m : ℕ) :
    (CreateCylinderMeshVertices baseRadius topRadius height n m).length
      = (n + 1) * (m + 1) := by
  have h := ListHelpers.length_flatMap_const
    (fun y => (List.range (n + 1)).map
      (cylinderVertex baseRadius topRadius height n m y))
    (n + 1) (m + 1) (fun y => by simp)
  simpa [CreateCylinderMeshVertices, Nat.mul_comm] using h

/-- Index count of the cylinder generator. -/
theorem CreateCylinderMeshIndices_length (n m : ℕ) :
    (CreateCylinderMeshIndices n m).length = 6 * n * m := by
  have h := ListHelpers.length_flatMap_const
    (fun y => (List.range n).flatMap (cylinderQuadIndices n y))
    (n * 6) m
    (fun y => ListHelpers.length_flatMap_const (cylinderQuadIndices n y) 6 n
      (fun x => rfl))
  simp only [CreateCylinderMeshIndices]
  rw [h]; ring

/-- Torus vertex count. -/
theorem CreateTorusMeshVertices_length (innerRadius outerRadius : ℝ)
    (r t : ℕ) :
    (CreateTorusMeshVertices innerRadius outerRadius r t).length
      = (t + 1) * (r + 1) := by
  have h := ListHelpers.length_flatMap_const
    (fun i => (List.range (r + 1)).map
      (torusVertex innerRadius outerRadius r t i))
    (r + 1) (t + 1) (fun i => by simp)
  simpa [CreateTorusMeshVertices] using h

/-- Torus index count. -/
theorem CreateTorusMeshIndices_length (r t : ℕ) :
    (CreateTorusMeshIndices r t).length = 6 * t * r := by
  have h := ListHelpers.length_flatMap_const
    (fun i => (List.range r).flatMap (torusQuadIndices r i))
    (r * 6) t
    (fun i => ListHelpers.length_flatMap_const (torusQuadIndices r i) 6 r
      (fun j => rfl))
  simp only [CreateTorusMeshIndices]
  rw [h]; ring

/-- Arithmetic bound for the quad-stitching indices: the largest index a
cell `(y, x)` can emit, `base + radialSegments + 2`, stays below the vertex
count. -/
theorem quad_index_bound {n m y x : ℕ} (hy : y < m) (hx : x < n) :
    y * (n + 1) + x + (n + 2) < (n + 1) * (m + 1) := by
  have h1 : (y + 1) * (n + 1) ≤ m * (n + 1) :=
    Nat.mul_le_mul_right (n + 1) hy
  nlinarith

/-- C1. For radial segment count `n ≥ 1` and height segment count `m ≥ 1`,
`CreateCylinderMesh` produces exactly `(n+1)*(m+1)` vertices and `6*n*m`
indices, and every emitted index is strictly below `(n+1)*(m+1)`. -/
theorem cylinder_mesh_counts (baseRadius topRadius height : ℝ) (n m : ℕ)
    (hn : 1 ≤ n) (hm : 1 ≤ m) :
    (CreateCylinderMeshVertices baseRadius topRadius height n m).length
        = (n + 1) * (m + 1) ∧
      (CreateCylinderMeshIndices n m).length = 6 * n * m ∧
      ∀ k ∈ CreateCylinderMeshIndices n m, k < (n + 1) * (m + 1) := by
  refine ⟨CreateCylinderMeshVertices_length baseRadius topRadius height n m,
    CreateCylinderMeshIndices_length n m, ?_⟩
  intro k hk
  simp only [CreateCylinderMeshIndices, List.mem_flatMap, List.mem_range,
    cylinderQuadIndices, List.mem_cons, List.not_mem_nil, or_false] at hk
  obtain ⟨y, hy, x, hx, hmem⟩ := hk
  have hb := quad_index_bound hy hx
  rcases hmem with h | h | h | h | h | h <;> subst h <;> linarith

/-- Witness for C1 at `n = 2`, `m = 1` (unit cylinder parameters). -/
theorem cylinder_mesh_counts_witness :
    1 ≤ 2 ∧ 1 ≤ 1 ∧
      ((CreateCylinderMeshVertices 1 1 1 2 1).length = (2 + 1) * (1 + 1) ∧
        (CreateCylinderMeshIndices 2 1).length = 6 * 2 * 1 ∧
        ∀ k ∈ CreateCylinderMeshIndices 2 1, k < (2 + 1) * (1 + 1)) :=
  ⟨by decide, by decide, cylinder_mesh_counts 1 1 1 2 1 (by decide) (by decide)⟩

/-- The window of `CreateTorusMeshIndices` belonging to grid cell `(i, j)`
is exactly the six indices of `torusQuadIndices`. -/
theorem torus_indices_cell (r t i j : ℕ) (hi : i < t) (hj : j < r) :
    ((CreateTorusMeshIndices r t).drop (6 * (i * r + j))).take 6 =
      torusQuadIndices r i j := by
  have hf : ∀ a, ((List.range r).flatMap (torusQuadIndices r a)).length = r * 6 :=
    fun a => ListHelpers.length_flatMap_const (torusQuadIndices r a) 6 r (fun b => rfl)
  have hidx : 6 * (i * r + j) = r * 6 * i + 6 * j := by ring
  simp only [CreateTorusMeshIndices]
  rw [hidx, ListHelpers.drop_take_flatMap_range _ (r * 6) t i (6 * j) 6 hf hi
    (by omega)]
  have hj0 : 6 * j = 6 * j + 0 := rfl
  rw [hj0, ListHelpers.drop_take_flatMap_range (torusQuadIndices r i) 6 r j 0 6
    (fun b => rfl) hj (by omega)]
  rfl

/-- C2 counterexample. At `t = r = 300` the index buffer wraps: for grid
cell `(i, j) = (250, 0)` the claimed `first = 250*(300+1) + 0 = 75250`
exceeds the `GLushort` range, and the buffer stores `75250 mod 65536 = 9714`
(and correspondingly for the other five slots), so the claimed six-index
window is not what the program emits there. -/
theorem torus_stitching_wraps_counterexample :
    ((CreateTorusMeshIndices 300 300).drop (6 * (250 * 300 + 0))).take 6 ≠
        [75250, 75551, 75251, 75551, 75552, 75251] ∧
      ((CreateTorusMeshIndices 300 300).drop (6 * (250 * 300 + 0))).take 6 =
        [9714, 10015, 9715, 10015, 10016, 9715] := by
  have h := torus_indices_cell 300 300 250 0 (by decide) (by decide)
  constructor
  · rw [h]; decide
  · rw [h]; decide

/-- C2 amended. For tubular segment count `t ≥ 1` and radial segment count
`r ≥ 1` such that all `(t+1)*(r+1)` vertex indices fit a `GLushort`
(`(t+1)*(r+1) ≤ 65536`), `CreateTorusMesh` produces exactly `(t+1)*(r+1)`
vertices and `6*t*r` indices, and grid cell `(i, j)` emits the two triangles
`(first, second, first+1)` and `(second, second+1, first+1)` with
`first = i*(r+1) + j` and `second = first + r + 1`; the vertex and index
counts hold even without the fit bound, under which the stored `GLushort`
values would wrap mod 2^16. -/
theorem torus_mesh_counts_and_stitching (innerRadius outerRadius : ℝ)
    (t r : ℕ) (ht : 1 ≤ t) (hr : 1 ≤ r) (hfit : (t + 1) * (r + 1) ≤ 65536) :
    (CreateTorusMeshVertices innerRadius outerRadius r t).length
        = (t + 1) * (r + 1) ∧
      (CreateTorusMeshIndices r t).length = 6 * t * r ∧
      ∀ i j, i < t → j < r → ∀ first second,
        first = i * (r + 1) + j → second = first + r + 1 →
        ((CreateTorusMeshIndices r t).drop (6 * (i * r + j))).take 6 =
          [first, second, first + 1, second, second + 1, first + 1] := by
  refine ⟨CreateTorusMeshVertices_length innerRadius outerRadius r t,
    CreateTorusMeshIndices_length r t, ?_⟩
  intro i j hi hj first second hfirst hsecond
  subst hfirst; subst hsecond
  rw [torus_indices_cell r t i j hi hj]
  have hb : i * (r + 1) + j + (r + 2) < (r + 1) * (t + 1) :=
    quad_index_bound hi hj
  have hb2 : i * (r + 1) + j + (r + 2) < 65536 :=
    lt_of_lt_of_le hb (by rw [Nat.mul_comm]; exact hfit)
  simp only [torusQuadIndices, glushort, List.cons.injEq, and_true]
  obtain ⟨A, hA⟩ : ∃ A, i * (r + 1) + j = A := ⟨_, rfl⟩
  rw [hA] at hb2 ⊢
  omega

/-- Witness for C2 at `t = 1`, `r = 2`, cell `(0, 1)`. -/
theorem torus_mesh_counts_and_stitching_witness :
    1 ≤ 1 ∧ 1 ≤ 2 ∧ (1 + 1) * (2 + 1) ≤ 65536 ∧
      ((CreateTorusMeshVertices 1 2 2 1).length = (1 + 1) * (2 + 1) ∧
        (CreateTorusMeshIndices 2 1).length = 6 * 1 * 2 ∧
        ∀ i j, i < 1 → j < 2 → ∀ first second,
          first = i * (2 + 1) + j → second = first + 2 + 1 →
          ((CreateTorusMeshIndices 2 1).drop (6 * (i * 2 + j))).take 6 =
            [first, second, first + 1, second, second + 1, first + 1]) :=
  ⟨by decide, by decide, by decide,
    torus_mesh_counts_and_stitching 1 2 1 2 (by decide) (by decide) (by decide)⟩

/-- C3 counterexample. At `radialSegments = 0` (a zero segment count) the
generators do not fail: `CreateCylinderMesh` and `CreateTorusMesh` still
return buffers — two vertices and an empty index list each — instead of
raising an assertion or error. -/
theorem mesh_generators_no_failfast_counterexample :
    (CreateCylinderMeshVertices 1 1 1 0 1).length = 2 ∧
      CreateCylinderMeshIndices 0 1 = [] ∧
      (CreateTorusMeshVertices 1 1 0 1).length = 2 ∧
      CreateTorusMeshIndices 0 1 = [] := by
  refine ⟨?_, rfl, ?_, rfl⟩
  · rw [CreateCylinderMeshVertices_length]
  · rw [CreateTorusMeshVertices_length]

/-- C3 amended. The generators perform no segment-count validation at all:
for every segment count, including zero, they are total and return buffers
that follow the same closed-form counts (degenerate for zero counts), so
enforcing the precondition is entirely the caller's responsibility. -/
theorem mesh_generators_total_no_validation
    (baseRadius topRadius height innerRadius outerRadius : ℝ) (n m r t : ℕ) :
    (CreateCylinderMeshVertices baseRadius topRadius height n m).length
        = (n + 1) * (m + 1) ∧
      (CreateCylinderMeshIndices n m).length = 6 * n * m ∧
      (CreateTorusMeshVertices innerRadius outerRadius r t).length
        = (t + 1) * (r + 1) ∧
      (CreateTorusMeshIndices r t).length = 6 * t * r :=
  ⟨CreateCylinderMeshVertices_length baseRadius topRadius height n m,
    CreateCylinderMeshIndices_length n m,
    CreateTorusMeshVertices_length innerRadius outerRadius r t,
    CreateTorusMeshIndices_length r t⟩

/-- C4. Every torus vertex equals the documented untilted cross-section
formula: `center + outerRadius·(cos v, 0, sin v)` with
`center = (cos u · innerRadius, sin u · innerRadius, 0)`, `u = 2π·i/t` and
`v = 2π·j/r`; the cross-section basis is not rotated into the ring's tangent
frame. -/
theorem torus_vertex_formula (innerRadius outerRadius : ℝ) (t r : ℕ)
    (ht : 1 ≤ t) (hr : 1 ≤ r) (i j : ℕ) (hi : i ≤ t) (hj : j ≤ r) :
    (CreateTorusMeshVertices innerRadius outerRadius r t)[i * (r + 1) + j]? =
      some ⟨Real.cos (2 * Real.pi * i / t) * innerRadius
              + outerRadius * Real.cos (2 * Real.pi * j / r),
            Real.sin (2 * Real.pi * i / t) * innerRadius,
            outerRadius * Real.sin (2 * Real.pi * j / r),
            (i : ℝ) / t, (j : ℝ) / r⟩ := by
  have hf : ∀ a, ((List.range (r + 1)).map
      (torusVertex innerRadius outerRadius r t a)).length = r + 1 :=
    fun a => by simp
  rw [show i * (r + 1) + j = (r + 1) * i + j by ring]
  simp only [CreateTorusMeshVertices]
  rw [ListHelpers.getElem?_flatMap_range _ (r + 1) (t + 1) i j hf
    (by omega) (by omega)]
  rw [List.getElem?_map, List.getElem?_range (by omega)]
  simp only [Option.map_some', Option.some.injEq]
  have hu : (i : ℝ) / t * 2 * Real.pi = 2 * Real.pi * i / t := by ring
  have hv : (j : ℝ) / r * 2 * Real.pi = 2 * Real.pi * j / r := by ring
  simp only [torusVertex, hu, hv, mul_zero, add_zero, zero_add]

/-- Witness for C4 at `t = 1`, `r = 1`, vertex `(0, 0)`. -/
theorem torus_vertex_formula_witness :
    1 ≤ 1 ∧ 0 ≤ 1 ∧
      (CreateTorusMeshVertices 1 2 1 1)[0 * (1 + 1) + 0]? =
        some ⟨Real.cos (2 * Real.pi * (0 : ℕ) / (1 : ℕ)) * 1
                + 2 * Real.cos (2 * Real.pi * (0 : ℕ) / (1 : ℕ)),
              Real.sin (2 * Real.pi * (0 : ℕ) / (1 : ℕ)) * 1,
              2 * Real.sin (2 * Real.pi * (0 : ℕ) / (1 : ℕ)),
              ((0 : ℕ) : ℝ) / (1 : ℕ), ((0 : ℕ) : ℝ) / (1 : ℕ)⟩ :=
  ⟨by decide, by decide,
    torus_vertex_formula 1 2 1 1 (by decide) (by decide) 0 0 (by decide) (by decide)⟩

/-- Position of a vertex of the cylinder grid inside the flat vertex list. -/
theorem cylinder_vertex_at (baseRadius topRadius height : ℝ) (n m y x : ℕ)
    (hy : y ≤ m) (hx : x ≤ n) :
    (CreateCylinderMeshVertices baseRadius topRadius height n m)[y * (n + 1) + x]? =
      some (cylinderVertex baseRadius topRadius height n m y x) := by
  have hf : ∀ a, ((List.range (n + 1)).map
      (cylinderVertex baseRadius topRadius height n m a)).length = n + 1 :=
    fun a => by simp
  rw [show y * (n + 1) + x = (n + 1) * y + x by ring]
  simp only [CreateCylinderMeshVertices]
  rw [ListHelpers.getElem?_flatMap_range _ (n + 1) (m + 1) y x hf
    (by omega) (by omega)]
  rw [List.getElem?_map, List.getElem?_range (by omega)]
  rfl

/-- Position of a vertex of the torus grid inside the flat vertex list. -/
theorem torus_vertex_at (innerRadius outerRadius : ℝ) (r t i j : ℕ)
    (hi : i ≤ t) (hj : j ≤ r) :
    (CreateTorusMeshVertices innerRadius outerRadius r t)[i * (r + 1) + j]? =
      some (torusVertex innerRadius outerRadius r t i j) := by
  have hf : ∀ a, ((List.range (r + 1)).map
      (torusVertex innerRadius outerRadius r t a)).length = r + 1 :=
    fun a => by simp
  rw [show i * (r + 1) + j = (r + 1) * i + j by ring]
  simp only [CreateTorusMeshVertices]
  rw [ListHelpers.getElem?_flatMap_range _ (r + 1) (t + 1) i j hf
    (by omega) (by omega)]
  rw [List.getElem?_map, List.getElem?_range (by omega)]
  rfl

/-- C5. Seam closure: in every ring of the cylinder and of the torus, the
vertex at radial index `0` and the vertex at radial index `n` (resp. `r`)
have positions that agree coordinatewise within the `1e-5` tolerance — in
the real-number model they are in fact exactly equal, since the angles `0`
and `2π` have the same cosine and sine. -/
theorem seam_closure (baseRadius topRadius height innerRadius outerRadius : ℝ)
    (n m y : ℕ) (hn : 1 ≤ n) (hy : y ≤ m)
    (r t i : ℕ) (hr : 1 ≤ r) (hi : i ≤ t) :
    ((CreateCylinderMeshVertices baseRadius topRadius height n m)[y * (n + 1)]? =
        some (cylinderVertex baseRadius topRadius height n m y 0) ∧
      (CreateCylinderMeshVertices baseRadius topRadius height n m)[y * (n + 1) + n]? =
        some (cylinderVertex baseRadius topRadius height n m y n) ∧
      |(cylinderVertex baseRadius topRadius height n m y 0).x -
        (cylinderVertex baseRadius topRadius height n m y n).x| ≤ 1e-5 ∧
      |(cylinderVertex baseRadius topRadius height n m y 0).y -
        (cylinderVertex baseRadius topRadius height n m y n).y| ≤ 1e-5 ∧
      |(cylinderVertex baseRadius topRadius height n m y 0).z -
        (cylinderVertex baseRadius topRadius height n m y n).z| ≤ 1e-5) ∧
    ((CreateTorusMeshVertices innerRadius outerRadius r t)[i * (r + 1)]? =
        some (torusVertex innerRadius outerRadius r t i 0) ∧
      (CreateTorusMeshVertices innerRadius outerRadius r t)[i * (r + 1) + r]? =
        some (torusVertex innerRadius outerRadius r t i r) ∧
      |(torusVertex innerRadius outerRadius r t i 0).x -
        (torusVertex innerRadius outerRadius r t i r).x| ≤ 1e-5 ∧
      |(torusVertex innerRadius outerRadius r t i 0).y -
        (torusVertex innerRadius outerRadius r t i r).y| ≤ 1e-5 ∧
      |(torusVertex innerRadius outerRadius r t i 0).z -
        (torusVertex innerRadius outerRadius r t i r).z| ≤ 1e-5) := by
  have hn' : (n : ℝ) ≠ 0 := Nat.cast_ne_zero.mpr (by omega)
  have hr' : (r : ℝ) ≠ 0 := Nat.cast_ne_zero.mpr (by omega)
  have hcyl0 := cylinder_vertex_at baseRadius topRadius height n m y 0 hy (by omega)
  have hcyln := cylinder_vertex_at baseRadius topRadius height n m y n hy le_rfl
  have htor0 := torus_vertex_at innerRadius outerRadius r t i 0 hi (by omega)
  have htorr := torus_vertex_at innerRadius outerRadius r t i r hi le_rfl
  have hth : 2 * Real.pi * (n : ℝ) / n = 2 * Real.pi := by field_simp
  have hvr : (r : ℝ) / r * 2 * Real.pi = 2 * Real.pi := by field_simp
  refine ⟨⟨?_, hcyln, ?_, ?_, ?_⟩, ⟨?_, htorr, ?_, ?_, ?_⟩⟩
  · simpa using hcyl0
  pick_goal 4
  · simpa using htor0
  all_goals
    simp [cylinderVertex, torusVertex, hth, hvr, Real.cos_two_pi,
      Real.sin_two_pi]
  all_goals norm_num

/-- Witness for C5 at `n = m = 1`, `y = 0`, `r = t = 1`, `i = 0`. -/
theorem seam_closure_witness :
    1 ≤ 1 ∧ 0 ≤ 1 ∧
      (((CreateCylinderMeshVertices 1 1 1 1 1)[0 * (1 + 1)]? =
          some (cylinderVertex 1 1 1 1 1 0 0) ∧
        (CreateCylinderMeshVertices 1 1 1 1 1)[0 * (1 + 1) + 1]? =
          some (cylinderVertex 1 1 1 1 1 0 1) ∧
        |(cylinderVertex 1 1 1 1 1 0 0).x - (cylinderVertex 1 1 1 1 1 0 1).x| ≤ 1e-5 ∧
        |(cylinderVertex 1 1 1 1 1 0 0).y - (cylinderVertex 1 1 1 1 1 0 1).y| ≤ 1e-5 ∧
        |(cylinderVertex 1 1 1 1 1 0 0).z - (cylinderVertex 1 1 1 1 1 0 1).z| ≤ 1e-5) ∧
      ((CreateTorusMeshVertices 1 2 1 1)[0 * (1 + 1)]? =
          some (torusVertex 1 2 1 1 0 0) ∧
        (CreateTorusMeshVertices 1 2 1 1)[0 * (1 + 1) + 1]? =
          some (torusVertex 1 2 1 1 0 1) ∧
        |(torusVertex 1 2 1 1 0 0).x - (torusVertex 1 2 1 1 0 1).x| ≤ 1e-5 ∧
        |(torusVertex 1 2 1 1 0 0).y - (torusVertex 1 2 1 1 0 1).y| ≤ 1e-5 ∧
        |(torusVertex 1 2 1 1 0 0).z - (torusVertex 1 2 1 1 0 1).z| ≤ 1e-5)) :=
  ⟨by decide, by decide,
    seam_closure 1 1 1 1 2 1 1 0 (by decide) (by decide) 1 1 0 (by decide) (by decide)⟩

/-- C6. `CreatePlaneMesh(1, 0)` produces exactly four vertices at
`(±1, 0, ±1)` with texture coordinates at the four unit-square corners, and
exactly the six indices `0, 1, 2, 2, 3, 0` forming two triangles. -/
theorem plane_unit_mesh :
    CreatePlaneMeshVertices 1 0 =
      [ ⟨-1, 0, -1, 0, 0⟩, ⟨1, 0, -1, 1, 0⟩, ⟨1, 0, 1, 1, 1⟩, ⟨-1, 0, 1, 0, 1⟩ ] ∧
      (CreatePlaneMeshVertices 1 0).length = 4 ∧
      CreatePlaneMeshIndices = [0, 1, 2, 2, 3, 0] ∧
      CreatePlaneMeshIndices.length = 6 :=
  ⟨rfl, rfl, rfl, rfl⟩

/-- Modelled from the spec: the demo's `camera.h` is not among the
repository sources (only its callers are), so the movement directions of
§4.2 `ProcessKeyboard` are modelled from the specification. -/
inductive CameraMovement where
  | forward
  | backward
  | moveLeft
  | moveRight
  | moveUp
  | moveDown

/-- Modelled from the spec: camera state of §3/§4.2 — position, yaw/pitch
orientation, zoom (field of view in degrees), and the movement/sensitivity
scalars. The orthonormal basis is derived from yaw and pitch on demand. -/
structure Camera where
  posX : ℝ
  posY : ℝ
  posZ : ℝ
  yaw : ℝ
  pitch : ℝ
  zoom : ℝ
  movementSpeed : ℝ
  mouseSensitivity : ℝ

/-- Degrees to radians, as `glm::radians`. -/
noncomputable def radians (deg : ℝ) : ℝ := deg * Real.pi / 180

/-- Modelled from the spec: front vector from yaw and pitch via the standard
spherical-to-Cartesian conversion of §4.2. -/
noncomputable def Camera.front (c : Camera) : ℝ × ℝ × ℝ :=
  (Real.cos (radians c.pitch) * Real.cos (radians c.yaw),
    Real.sin (radians c.pitch),
    Real.cos (radians c.pitch) * Real.sin (radians c.yaw))

/-- Cross product of two 3-vectors. -/
def cross3 (a b : ℝ × ℝ × ℝ) : ℝ × ℝ × ℝ :=
  (a.2.1 * b.2.2 - a.2.2 * b.2.1,
    a.2.2 * b.1 - a.1 * b.2.2,
    a.1 * b.2.1 - a.2.1 * b.1)

/-- Euclidean normalization of a 3-vector. -/
noncomputable def normalize3 (v : ℝ × ℝ × ℝ) : ℝ × ℝ × ℝ :=
  let n := Real.sqrt (v.1 ^ 2 + v.2.1 ^ 2 + v.2.2 ^ 2)
  (v.1 / n, v.2.1 / n, v.2.2 / n)

/-- Modelled from the spec: right vector `normalize(front × worldUp)`. -/
noncomputable def Camera.right (c : Camera) : ℝ × ℝ × ℝ :=
  normalize3 (cross3 c.front (0, 1, 0))

/-- Modelled from the spec: §4.2 `ProcessKeyboard` moves the position along
`front`, `right`, or world-up by the caller-supplied distance; orientation
state is untouched. -/
noncomputable def Camera.processKeyboard (c : Camera)
    (direction : CameraMovement) (deltaDistance : ℝ) : Camera :=
  let move : ℝ × ℝ × ℝ :=
    match direction with
    | .forward => c.front
    | .backward => (-c.front.1, -c.front.2.1, -c.front.2.2)
    | .moveLeft => (-c.right.1, -c.right.2.1, -c.right.2.2)
    | .moveRight => c.right
    | .moveUp => (0, 1, 0)
    | .moveDown => (0, -1, 0)
  { c with
    posX := c.posX + move.1 * deltaDistance,
    posY := c.posY + move.2.1 * deltaDistance,
    posZ := c.posZ + move.2.2 * deltaDistance }

/-- Modelled from the spec: §4.2 `ProcessMouseMovement` scales the pixel
offsets by `mouseSensitivity`, adds them to yaw and pitch, and clamps pitch
to the ±89° range (pitch above 89° becomes 89°, below -89° becomes -89°). -/
noncomputable def Camera.processMouseMovement (c : Camera)
    (xOffsetPixels yOffsetPixels : ℝ) : Camera :=
  let xOffset := xOffsetPixels * c.mouseSensitivity
  let yOffset := yOffsetPixels * c.mouseSensitivity
  { c with
    yaw := c.yaw + xOffset,
    pitch := max (-89) (min 89 (c.pitch + yOffset)) }

/-- Modelled from the spec: §4.2 `ProcessMouseScroll` adjusts zoom by
`-yOffset`, clamped to the configured `[1°, 45°]` range. -/
noncomputable def Camera.processMouseScroll (c : Camera) (yOffset : ℝ) : Camera :=
  { c with zoom := max 1 (min 45 (c.zoom - yOffset)) }

/-- A discrete camera input event, as delivered by the GLFW callbacks of the
demo's main loop. -/
inductive CameraEvent where
  | mouseMove (xOffsetPixels yOffsetPixels : ℝ)
  | keyboard (direction : CameraMovement) (deltaDistance : ℝ)
  | scroll (yOffset : ℝ)

/-- Dispatch of one camera event to the corresponding operation. -/
noncomputable def Camera.applyEvent (c : Camera) : CameraEvent → Camera
  | .mouseMove x y => c.processMouseMovement x y
  | .keyboard d dist => c.processKeyboard d dist
  | .scroll y => c.processMouseScroll y

/-- Folding a whole input history over the camera. -/
noncomputable def Camera.applyEvents (c : Camera) (events : List CameraEvent) :
    Camera :=
  events.foldl Camera.applyEvent c

/-- Modelled from the spec: the demo's initial camera
`Camera(glm::vec3(0.0f, 0.0f, 3.0f))` with the fixed defaults yaw = -90°,
pitch = 0, zoom = 45°. -/
noncomputable def cameraDefault : Camera :=
  ⟨0, 0, 3, -90, 0, 45, 2.5, 0.1⟩

/-- One camera operation keeps an in-range pitch in range. -/
theorem Camera.applyEvent_pitch_bounds (c : Camera) (e : CameraEvent)
    (hlo : -89 ≤ c.pitch) (hhi : c.pitch ≤ 89) :
    -89 ≤ (c.applyEvent e).pitch ∧ (c.applyEvent e).pitch ≤ 89 := by
  cases e with
  | mouseMove x y =>
    constructor
    · exact le_max_left _ _
    · exact max_le (by norm_num) (min_le_left _ _)
  | keyboard d dist => exact ⟨hlo, hhi⟩
  | scroll y => exact ⟨hlo, hhi⟩

/-- C7. Starting from the demo's default camera, no sequence of camera
operations — mouse movements with arbitrarily large offsets included — ever
drives the pitch above 89° or below -89°: the pitch clamp is an invariant
preserved by every camera operation. -/
theorem camera_pitch_clamp_invariant (events : List CameraEvent) :
    -89 ≤ (cameraDefault.applyEvents events).pitch ∧
      (cameraDefault.applyEvents events).pitch ≤ 89 := by
  have key : ∀ (evs : List CameraEvent) (c : Camera),
      -89 ≤ c.pitch → c.pitch ≤ 89 →
      -89 ≤ (c.applyEvents evs).pitch ∧ (c.applyEvents evs).pitch ≤ 89 := by
    intro evs
    induction evs with
    | nil => intro c hlo hhi; exact ⟨hlo, hhi⟩
    | cons e rest ih =>
      intro c hlo hhi
      have hstep := Camera.applyEvent_pitch_bounds c e hlo hhi
      exact ih (c.applyEvent e) hstep.1 hstep.2
  exact key events cameraDefault (by norm_num [cameraDefault]) (by norm_num [cameraDefault])

/-- Association-list lookup, mirroring `std::map::find` (first entry whose
key matches). -/
def findData {κ β : Type} [DecidableEq κ] (k : κ) : List (κ × β) → Option β
  | [] => none
  | (k2, v) :: rest => if k = k2 then some v else findData k rest

/-- The five floats of one interleaved vertex, in upload order. -/
noncomputable def Vertex.floats (v : Vertex) : List ℝ := [v.x, v.y, v.z, v.s, v.t]

/-- The flat `GL_ARRAY_BUFFER` contents for a vertex list. -/
noncomputable def vertexBufferFloats (vs : List Vertex) : List ℝ :=
  vs.flatMap Vertex.floats

/-- The global OpenGL object state as far as the generators touch it: a
counter handing out fresh object names (`glGenVertexArrays`/`glGenBuffers`)
and the data stores written by `glBufferData` for array and element
buffers. -/
structure GLState where
  nextId : ℕ
  arrayBufferData : List (ℕ × List ℝ)
  elementBufferData : List (ℕ × List ℕ)

/-- The `GLMesh` record returned by the generators: a vertex-array object
name, the two buffer object names, and the index count. -/
structure GLMesh where
  vao : ℕ
  vbo0 : ℕ
  vbo1 : ℕ
  nIndices : ℕ

/-- The data most recently uploaded to array buffer `h`. -/
def GLState.arrayData (s : GLState) (h : ℕ) : Option (List ℝ) :=
  findData h s.arrayBufferData

/-- The data most recently uploaded to element buffer `h`. -/
def GLState.elementData (s : GLState) (h : ℕ) : Option (List ℕ) :=
  findData h s.elementBufferData

/-- The GL tail shared by all four generators: generate a vertex array and
two buffer objects, upload the vertex floats to the array buffer and the
indices to the element buffer, and return the `GLMesh`. -/
noncomputable def uploadMesh (vdata : List ℝ) (idata : List ℕ) (s : GLState) :
    GLMesh × GLState :=
  let vao := s.nextId
  let vbo0 := s.nextId + 1
  let vbo1 := s.nextId + 2
  (⟨vao, vbo0, vbo1, idata.length⟩,
    ⟨s.nextId + 3,
      (vbo0, vdata) :: s.arrayBufferData,
      (vbo1, idata) :: s.elementBufferData⟩)

/-- The full `CreatePlaneMesh` call: pure data generation followed by the GL
upload, threading the GL object state explicitly. -/
noncomputable def CreatePlaneMesh (planeSize planeY : ℝ) (s : GLState) :
    GLMesh × GLState :=
  uploadMesh (vertexBufferFloats (CreatePlaneMeshVertices planeSize planeY))
    CreatePlaneMeshIndices s

/-- The full `CreatePyramidMesh` call. -/
noncomputable def CreatePyramidMesh (baseSize height : ℝ) (s : GLState) :
    GLMesh × GLState :=
  uploadMesh (vertexBufferFloats (CreatePyramidMeshVertices baseSize height))
    CreatePyramidMeshIndices s

/-- The full `CreateCylinderMesh` call. -/
noncomputable def CreateCylinderMesh (baseRadius topRadius height : ℝ)
    (radialSegments heightSegments : ℕ) (s : GLState) : GLMesh × GLState :=
  uploadMesh
    (vertexBufferFloats
      (CreateCylinderMeshVertices baseRadius topRadius height radialSegments
        heightSegments))
    (CreateCylinderMeshIndices radialSegments heightSegments) s

/-- The full `CreateTorusMesh` call (the unused `color` argument omitted). -/
noncomputable def CreateTorusMesh (innerRadius outerRadius : ℝ)
    (radialSegments tubularSegments : ℕ) (s : GLState) : GLMesh × GLState :=
  uploadMesh
    (vertexBufferFloats
      (CreateTorusMeshVertices innerRadius outerRadius radialSegments
        tubularSegments))
    (CreateTorusMeshIndices radialSegments tubularSegments) s

/-- Running the upload twice, from any ambient GL state: the two meshes get
distinct object names, but their uploaded vertex and index buffers hold
exactly the same data, namely the pure function of the parameters. -/
theorem uploadMesh_run_twice (vdata : List ℝ) (idata : List ℕ) (s0 : GLState) :
    ((uploadMesh vdata idata ((uploadMesh vdata idata s0).2)).2).arrayData
        ((uploadMesh vdata idata s0).1.vbo0) = some vdata ∧
      ((uploadMesh vdata idata ((uploadMesh vdata idata s0).2)).2).arrayData
        ((uploadMesh vdata idata ((uploadMesh vdata idata s0).2)).1.vbo0) = some vdata ∧
      ((uploadMesh vdata idata ((uploadMesh vdata idata s0).2)).2).elementData
        ((uploadMesh vdata idata s0).1.vbo1) = some idata ∧
      ((uploadMesh vdata idata ((uploadMesh vdata idata s0).2)).2).elementData
        ((uploadMesh vdata idata ((uploadMesh vdata idata s0).2)).1.vbo1) = some idata ∧
      (uploadMesh vdata idata s0).1.nIndices =
        (uploadMesh vdata idata ((uploadMesh vdata idata s0).2)).1.nIndices := by
  refine ⟨?_, ?_, ?_, ?_, rfl⟩ <;>
    simp only [uploadMesh, GLState.arrayData, GLState.elementData, findData] <;>
    split_ifs <;> rfl

/-- A generator, run twice in sequence from an arbitrary ambient GL state,
uploads bit-identical (and present) vertex and index buffers for both
meshes and reports the same index count: generation is a deterministic,
hidden-state-free function of its parameters. -/
def runTwiceSameBuffers (g : GLState → GLMesh × GLState) : Prop :=
  ∀ s0 : GLState,
    ((g ((g s0).2)).2).arrayData ((g s0).1.vbo0) =
        ((g ((g s0).2)).2).arrayData ((g ((g s0).2)).1.vbo0) ∧
      ((g ((g s0).2)).2).arrayData ((g s0).1.vbo0) ≠ none ∧
      ((g ((g s0).2)).2).elementData ((g s0).1.vbo1) =
        ((g ((g s0).2)).2).elementData ((g ((g s0).2)).1.vbo1) ∧
      ((g ((g s0).2)).2).elementData ((g s0).1.vbo1) ≠ none ∧
      (g s0).1.nIndices = (g ((g s0).2)).1.nIndices

/-- Any generator that factors through `uploadMesh` satisfies the
run-twice determinism property. -/
theorem uploadMesh_runTwiceSameBuffers (vdata : List ℝ) (idata : List ℕ) :
    runTwiceSameBuffers (uploadMesh vdata idata) := by
  intro s0
  obtain ⟨h1, h2, h3, h4, h5⟩ := uploadMesh_run_twice vdata idata s0
  refine ⟨h1.trans h2.symm, ?_, h3.trans h4.symm, ?_, h5⟩
  · rw [h1]; exact Option.some_ne_none _
  · rw [h3]; exact Option.some_ne_none _

/-- C8. For every primitive generator (plane, pyramid, cylinder, torus) and
every parameter set, two invocations with identical parameters upload
bit-identical vertex and index buffers: mesh generation has no hidden
state. -/
theorem mesh_generation_deterministic
    (planeSize planeY baseSize pyramidHeight baseRadius topRadius
      cylinderHeight innerRadius outerRadius : ℝ) (n m r t : ℕ) :
    runTwiceSameBuffers (CreatePlaneMesh planeSize planeY) ∧
      runTwiceSameBuffers (CreatePyramidMesh baseSize pyramidHeight) ∧
      runTwiceSameBuffers
        (CreateCylinderMesh baseRadius topRadius cylinderHeight n m) ∧
      runTwiceSameBuffers (CreateTorusMesh innerRadius outerRadius r t) :=
  ⟨uploadMesh_runTwiceSameBuffers _ _, uploadMesh_runTwiceSameBuffers _ _,
    uploadMesh_runTwiceSameBuffers _ _, uploadMesh_runTwiceSameBuffers _ _⟩

/-- The quiz's answer-to-party map
(`std::map<std::string, std::string> answers`), listed in the map's sorted
key iteration order (which here coincides with the insertion order
A, B, C, D). -/
def answers : List (String × String) :=
  [("A", "Democrat"), ("B", "Republican"), ("C", "Independent"), ("D", "Libertarian")]

/-- The quiz's initial tally map
(`std::map<std::string, int> partyCounts`), listed in the map's sorted key
iteration order: Democrat < Independent < Libertarian < Republican. -/
def initialPartyCounts : List (String × ℕ) :=
  [("Democrat", 0), ("Independent", 0), ("Libertarian", 0), ("Republican", 0)]

/-- `partyCounts[party]++` on the association list: bump the entry whose key
is `party`, leave the others alone. -/
def incrementCount (party : String) (counts : List (String × ℕ)) :
    List (String × ℕ) :=
  counts.map fun p => if p.1 = party then (p.1, p.2 + 1) else p

/-- One iteration of the response-analysis loop: if the answer is found in
the `answers` map, increment the mapped party's count, otherwise do
nothing. -/
def tallyStep (counts : List (String × ℕ)) (answer : String) :
    List (String × ℕ) :=
  match findData answer answers with
  | some party => incrementCount party counts
  | none => counts

/-- The whole response-analysis loop over the collected user answers. -/
def tallyResponses (responses : List String) : List (String × ℕ) :=
  responses.foldl tallyStep initialPartyCounts

/-- Total number of tallied (recognized) answers. -/
def countsSum (counts : List (String × ℕ)) : ℕ := (counts.map Prod.snd).sum

/-- Incrementing never changes the key column. -/
theorem incrementCount_keys (party : String) (counts : List (String × ℕ)) :
    (incrementCount party counts).map Prod.fst = counts.map Prod.fst := by
  induction counts with
  | nil => rfl
  | cons hd tl ih =>
    simp only [incrementCount, List.map_cons] at ih ⊢
    by_cases h : hd.1 = party <;> simp [h, ih]

/-- A tally step never changes the key column. -/
theorem tallyStep_keys (counts : List (String × ℕ)) (answer : String) :
    (tallyStep counts answer).map Prod.fst = counts.map Prod.fst := by
  unfold tallyStep
  cases findData answer answers with
  | none => rfl
  | some party => exact incrementCount_keys party counts

/-- Unrecognized answers are not found in the `answers` map. -/
theorem findData_answers_eq_none (a : String)
    (ha : a ∉ (["A", "B", "C", "D"] : List String)) :
    findData a answers = none := by
  simp only [List.mem_cons, List.not_mem_nil, or_false, not_or] at ha
  obtain ⟨h1, h2, h3, h4⟩ := ha
  simp [findData, answers, h1, h2, h3, h4]

/-- On a tally whose key column is the four quiz parties, incrementing one
of the four parties adds exactly one to the total. -/
theorem countsSum_incrementCount (party : String) (counts : List (String × ℕ))
    (hkeys : counts.map Prod.fst = initialPartyCounts.map Prod.fst)
    (hp : party ∈ (["Democrat", "Republican", "Independent", "Libertarian"] : List String)) :
    countsSum (incrementCount party counts) = countsSum counts + 1 := by
  simp only [initialPartyCounts, List.map_cons, List.map_nil] at hkeys
  simp only [List.mem_cons, List.not_mem_nil, or_false] at hp
  rcases counts with _ | ⟨p1, _ | ⟨p2, _ | ⟨p3, _ | ⟨p4, tl⟩⟩⟩⟩ <;> simp_all
  obtain ⟨h1, h2, h3, h4⟩ := hkeys
  rcases hp with hp | hp | hp | hp <;> subst hp <;>
    simp [incrementCount, countsSum, h1, h2, h3, h4] <;> omega

/-- The recognized answers and the parties they map to. -/
theorem findData_answers_of_mem (a : String)
    (ha : a ∈ (["A", "B", "C", "D"] : List String)) :
    ∃ party, findData a answers = some party ∧
      party ∈ (["Democrat", "Republican", "Independent", "Libertarian"] : List String) := by
  simp only [List.mem_cons, List.not_mem_nil, or_false] at ha
  rcases ha with ha | ha | ha | ha <;> subst ha <;> exact ⟨_, rfl, by decide⟩

/-- Folding the tally loop adds exactly one for each recognized answer. -/
theorem tally_fold_sum (responses : List String) :
    ∀ counts : List (String × ℕ),
      counts.map Prod.fst = initialPartyCounts.map Prod.fst →
      countsSum (responses.foldl tallyStep counts) =
        countsSum counts +
          (responses.filter fun a =>
            a ∈ (["A", "B", "C", "D"] : List String)).length := by
  induction responses with
  | nil => intro counts hkeys; simp
  | cons a rest ih =>
    intro counts hkeys
    rw [List.foldl_cons]
    have hkeys2 : (tallyStep counts a).map Prod.fst =
        initialPartyCounts.map Prod.fst :=
      (tallyStep_keys counts a).trans hkeys
    rw [ih (tallyStep counts a) hkeys2]
    by_cases ha : a ∈ (["A", "B", "C", "D"] : List String)
    · obtain ⟨party, hfind, hparty⟩ := findData_answers_of_mem a ha
      have hstep : tallyStep counts a = incrementCount party counts := by
        unfold tallyStep
        rw [hfind]
      rw [hstep, countsSum_incrementCount party counts hkeys hparty,
        List.filter_cons_of_pos (by simpa using ha)]
      simp [Nat.add_comm, Nat.add_assoc, Nat.add_left_comm]
    · have hstep : tallyStep counts a = counts := by
        unfold tallyStep
        rw [findData_answers_eq_none a ha]
      rw [hstep, List.filter_cons_of_neg (by simpa using ha)]

/-- C9. For every sequence of ten user answers to the quiz, an answer that
is not exactly one of the strings A, B, C, D increments no party count, so
the sum of the four party counts equals the number of recognized answers
and is at most ten. -/
theorem quiz_tally_sum (responses : List String)
    (h10 : responses.length = 10) :
    countsSum (tallyResponses responses) =
        (responses.filter fun a =>
          a ∈ (["A", "B", "C", "D"] : List String)).length ∧
      countsSum (tallyResponses responses) ≤ 10 ∧
      ∀ a, a ∉ (["A", "B", "C", "D"] : List String) →
        ∀ counts, tallyStep counts a = counts := by
  have hmain := tally_fold_sum responses initialPartyCounts rfl
  have hinit : countsSum initialPartyCounts = 0 := rfl
  rw [hinit, Nat.zero_add] at hmain
  refine ⟨hmain, ?_, ?_⟩
  · show countsSum (List.foldl tallyStep initialPartyCounts responses) ≤ 10
    rw [hmain, ← h10]
    exact List.length_filter_le _ _
  · intro a ha counts
    unfold tallyStep
    rw [findData_answers_eq_none a ha]

/-- Witness for C9 on a concrete ten-answer run with three unrecognized
answers. -/
theorem quiz_tally_sum_witness :
    (["A", "B", "E", "D", "A", "x", "C", "D", "B", "Q"] : List String).length = 10 ∧
      (countsSum (tallyResponses ["A", "B", "E", "D", "A", "x", "C", "D", "B", "Q"]) =
          ((["A", "B", "E", "D", "A", "x", "C", "D", "B", "Q"] : List String).filter
            fun a => a ∈ (["A", "B", "C", "D"] : List String)).length ∧
        countsSum (tallyResponses ["A", "B", "E", "D", "A", "x", "C", "D", "B", "Q"]) ≤ 10 ∧
        ∀ a, a ∉ (["A", "B", "C", "D"] : List String) →
          ∀ counts, tallyStep counts a = counts) :=
  ⟨by decide, quiz_tally_sum ["A", "B", "E", "D", "A", "x", "C", "D", "B", "Q"] (by decide)⟩

/-- `std::max_element` over the tally map's iteration order with comparator
`a.second < b.second`: start from the first element and replace the current
best only when a strictly greater count appears, so the first of several
maxima wins. -/
def maxElement (l : List (String × ℕ)) : Option (String × ℕ) :=
  match l with
  | [] => none
  | h :: tl => some (tl.foldl (fun largest p => if largest.2 < p.2 then p else largest) h)

/-- The quiz's predicted party: the key of the `std::max_element` result. -/
def predictedParty (counts : List (String × ℕ)) : Option String :=
  (maxElement counts).map Prod.fst

/-- Written from the claim's words, for comparison with the translated
`maxElement`: the alphabetically first party among those holding the
maximal count, over the four quiz parties in sorted key order. -/
def firstMaxParty (c1 c2 c3 c4 : ℕ) : String :=
  let mx := max c1 (max c2 (max c3 c4))
  if c1 = mx then "Democrat"
  else if c2 = mx then "Independent"
  else if c3 = mx then "Libertarian"
  else "Republican"

/-- C10. The prediction is the alphabetically first party among those with
the maximal count, because `std::max_element` over the map's sorted
iteration order returns the first maximum; in particular, when every answer
is unrecognized all four counts stay equal and the program predicts
Democrat. -/
theorem quiz_predicted_party_first_max :
    (∀ c1 c2 c3 c4 : ℕ,
        predictedParty
            [("Democrat", c1), ("Independent", c2), ("Libertarian", c3),
              ("Republican", c4)] =
          some (firstMaxParty c1 c2 c3 c4)) ∧
      predictedParty (tallyResponses (List.replicate 10 "E")) = some "Democrat" := by
  constructor
  · intro c1 c2 c3 c4
    simp only [predictedParty, maxElement, List.foldl_cons, List.foldl_nil,
      firstMaxParty, Option.map_some', Option.some.injEq]
    split_ifs <;> first | rfl | omega
  · decide
